import Mathlib

/-!
Verification development for the FlowTEX I2C sensor reader
(`src/FlowTEX_I2C.ino`).

The program repeatedly reads a fixed 32-byte frame over I2C, validates it
with a single wraparound checksum over the whole frame, rebuilds typed
variables from the frame's byte spans (little-endian `memcpy` into
zero-initialized integers), converts the 24-bit raw flow reading into an
engineering value using the raw range reading, and smooths the result
with a cascaded exponential-moving-average (EMA) filter (`cEMAFilter`).

Modelling conventions:
* machine bytes and raw field values are `ℕ`, with explicit `% 2 ^ w`
  or `&&&` masks where the C code relies on fixed-width wraparound;
* `float` quantities are modelled as exact rationals `ℚ` (the spec's
  claims are about the real-arithmetic formulas, not IEEE rounding);
* the byte buffer `I2CBuffer` is a `List ℕ` of length 32;
* the C++ member array `filterData[MAX_EMA_ORDER]` is modelled as a
  total function `ℕ → ℚ`; the code only ever touches indices
  `< order ≤ MAX_EMA_ORDER`.
-/

namespace FlowTEX

/-- `MAX_EMA_ORDER` from the source (`#define MAX_EMA_ORDER 10`). -/
def MAX_EMA_ORDER : ℕ := 10

/-- `EMA_DEFAULT_ORDER` from the source (`#define EMA_DEFAULT_ORDER 5`). -/
def EMA_DEFAULT_ORDER : ℕ := 5

/-- `EMA_DEFAULT_ALPHA` from the source (`#define EMA_DEFAULT_ALPHA 0.5f`). -/
def EMA_DEFAULT_ALPHA : ℚ := 1/2

/-- State of the `cEMAFilter` class: the stage accumulator array
`filterData`, the cached output `filtValue`, the `firstSample` flag and
the configured `order` and `alpha`. -/
structure cEMAFilter where
  filterData : ℕ → ℚ
  filtValue : ℚ
  firstSample : Bool
  order : ℕ
  alpha : ℚ

/-- The default constructor `cEMAFilter()`: sets `firstSample = true`,
`order = EMA_DEFAULT_ORDER`, `alpha = EMA_DEFAULT_ALPHA`.  The global
instance `FlowFilter` is zero-initialized before the constructor runs,
so `filterData` and `filtValue` start at `0`. -/
def cEMAFilter.init : cEMAFilter :=
  { filterData := fun _ => 0
    filtValue := 0
    firstSample := true
    order := EMA_DEFAULT_ORDER
    alpha := EMA_DEFAULT_ALPHA }

/-- `cEMAFilter::config(alpha, order)`: updates `this->order` and
`this->alpha` only when `order > 0 && order <= MAX_EMA_ORDER` and
`alpha > 0 && alpha < 1`; otherwise the body is skipped entirely. -/
def cEMAFilter.config (f : cEMAFilter) (alpha : ℚ) (order : ℕ) : cEMAFilter :=
  if (0 < order ∧ order ≤ MAX_EMA_ORDER) ∧ (0 < alpha ∧ alpha < 1) then
    { f with order := order, alpha := alpha }
  else
    f

/-- The parameterized constructor `cEMAFilter(float alpha, uint8_t order)`.
Its body assigns `order = EMA_DEFAULT_ORDER; alpha = EMA_DEFAULT_ALPHA;`
— these assignments hit the constructor's own *parameters*, which shadow
the member fields — and then calls `config(alpha, order)` on the
reassigned parameters.  The member fields start unset and are modelled
as the zero-initialized values `0`. -/
def cEMAFilter.initParam (alpha : ℚ) (order : ℕ) : cEMAFilter :=
  let order := EMA_DEFAULT_ORDER
  let alpha := EMA_DEFAULT_ALPHA
  cEMAFilter.config
    { filterData := fun _ => 0
      filtValue := 0
      firstSample := true
      order := 0
      alpha := 0 }
    alpha order

/-- `cEMAFilter::reset(value)`: `for(i = 0; i < order; i++)
filterData[i] = value;`.  Nothing else is touched — in particular the
`firstSample` flag is left alone. -/
def cEMAFilter.reset (f : cEMAFilter) (value : ℚ) : cEMAFilter :=
  { f with filterData := fun i => if i < f.order then value else f.filterData i }

/-- One pass of the cascade loop in `cEMAFilter::filter`: for each index
`i` in the list, `filterData[i] = alpha*filterData[i] + (1-alpha)*value;
value = filterData[i];`.  Returns the final array and the final `value`. -/
def emaCascade (alpha : ℚ) : List ℕ → (ℕ → ℚ) → ℚ → ((ℕ → ℚ) × ℚ)
  | [], data, value => (data, value)
  | i :: rest, data, value =>
    let nv := alpha * data i + (1 - alpha) * value
    emaCascade alpha rest (Function.update data i nv) nv

/-- `cEMAFilter::filter(value)`: if `firstSample`, first `reset(value)`
and clear the flag; then run the cascade over stages `0..order-1`, cache
the last stage's output in `filtValue` and return it.  Returns the new
filter state together with the returned value. -/
def cEMAFilter.filter (f : cEMAFilter) (value : ℚ) : cEMAFilter × ℚ :=
  let f1 := if f.firstSample then { f.reset value with firstSample := false } else f
  let r := emaCascade f1.alpha (List.range f1.order) f1.filterData value
  ({ f1 with filterData := r.1, filtValue := r.2 }, r.2)

/-- `cEMAFilter::getValue()`: returns the cached `filtValue`. -/
def cEMAFilter.getValue (f : cEMAFilter) : ℚ :=
  f.filtValue

/-- The frame checksum computed in `loop()`: a `uint8_t` accumulator
`chks` summed over all `sizeof(tI2CTable) = 32` buffer bytes, i.e. the
byte sum with 8-bit wraparound at every step. -/
def chksum (b : List ℕ) : ℕ :=
  b.foldl (fun a x => (a + x) % 256) 0

/-- Little-endian value of a byte list: the first byte is least
significant.  This is the value a zero-initialized little-endian integer
holds after the bytes are `memcpy`ed into its low-order positions. -/
def leVal (bytes : List ℕ) : ℕ :=
  bytes.foldr (fun x acc => x + 256 * acc) 0

/-- `RebuildVarFromBuffer(&var, ptBuffer, len)`: `memcpy` of `len` bytes
starting at offset `off` of the frame into a zero-initialized
little-endian integer variable. -/
def RebuildVarFromBuffer (b : List ℕ) (off len : ℕ) : ℕ :=
  leVal ((b.drop off).take len)

/-- The decoded global variables populated on the success path of
`loop()`.  `temp` holds the 16-bit pattern stored in the `int16_t`
variable; `serialNumber` and `version` are the copied byte arrays. -/
structure DecodedFrame where
  flow : ℕ
  temp : ℕ
  range : ℕ
  serialNumber : List ℕ
  version : List ℕ
  fwChks : ℕ
deriving DecidableEq, Repr

/-- Field extraction from the frame, using the `tI2CTable` layout:
flow at bytes 0..2, temp at 4..5, range at 7..9, serialNumber at 11..20,
version at 22..25, fwChks at 27..30 (each followed by its per-field
checksum byte, which is never read individually). -/
def decodeFields (b : List ℕ) : DecodedFrame :=
  { flow := RebuildVarFromBuffer b 0 3
    temp := RebuildVarFromBuffer b 4 2
    range := RebuildVarFromBuffer b 7 3
    serialNumber := (b.drop 11).take 10
    version := (b.drop 22).take 4
    fwChks := RebuildVarFromBuffer b 27 4 }

/-- The only decode failure in `loop()`: a nonzero whole-frame checksum. -/
inductive DecodeError where
  | ChecksumError
deriving DecidableEq, Repr

/-- The frame-decoding portion of `loop()`: compute the wraparound sum
of all 32 bytes (field bytes and per-field checksum bytes together); if
it is nonzero the frame is rejected with `ChecksumError` and no field is
extracted, otherwise all fields are rebuilt from their byte spans. -/
def decode (b : List ℕ) : Except DecodeError DecodedFrame :=
  if chksum b = 0 then
    Except.ok (decodeFields b)
  else
    Except.error DecodeError.ChecksumError

/-- The magnitude computed and stored back into the global `flow`
variable by the negative-flow branch: `flow = (~flow) + 1;` is
two's-complement negation on the `int32_t`, whose 32-bit pattern is
`2^32 - flow`, and `flow &= 0x7FFFFF;` masks it to 23 bits. -/
def negMask (rawFlow : ℕ) : ℕ :=
  (2 ^ 32 - rawFlow) &&& 0x7FFFFF

/-- The flow conversion in `loop()`.  `flow` is a non-negative `int32_t`
holding the 24-bit raw value.  `if(flow & 0x800000)` the code negates it
and masks to 23 bits (see `negMask`) and computes
`-(flow * range) / 0x7FFFFF` in floating point; otherwise it computes
`(flow * range) / 0x7FFFFF` directly. -/
def convertFlow (rawFlow rawRange : ℕ) : ℚ :=
  if rawFlow &&& 0x800000 ≠ 0 then
    -((negMask rawFlow : ℚ) * (rawRange : ℚ)) / (0x7FFFFF : ℚ)
  else
    ((rawFlow : ℚ) * (rawRange : ℚ)) / (0x7FFFFF : ℚ)

/-- The global program state touched by the frame-processing part of
`loop()` (lines 233–277): the decoded variables, the converted
`flowValue`, the `FlowFilter` instance and the three counters. -/
structure LoopState where
  flow : ℕ
  temp : ℕ
  range : ℕ
  serialNumber : List ℕ
  version : List ℕ
  fwChks : ℕ
  flowValue : ℚ
  FlowFilter : cEMAFilter
  comError : ℕ
  error : ℕ
  success : ℕ

/-- The body of `loop()` after a successful `masterRead` (lines
233–277): compute the whole-frame checksum; on mismatch only increment
`error`; on match increment `success`, rebuild every decoded variable
from the buffer, convert the flow (storing the masked magnitude back
into `flow` when negative) and feed the result to `FlowFilter`. -/
def processFrame (s : LoopState) (b : List ℕ) : LoopState :=
  if chksum b ≠ 0 then
    { s with error := s.error + 1 }
  else
    let d := decodeFields b
    let flow1 := if d.flow &&& 0x800000 ≠ 0 then negMask d.flow else d.flow
    let fv := convertFlow d.flow d.range
    { flow := flow1
      temp := d.temp
      range := d.range
      serialNumber := d.serialNumber
      version := d.version
      fwChks := d.fwChks
      flowValue := fv
      FlowFilter := (s.FlowFilter.filter fv).1
      comError := s.comError
      error := s.error
      success := s.success + 1 }

/-- A concrete valid frame: flow bytes `[0x10, 0x20, 0x00]`, flow
checksum byte `0xD0` (making the grand total `0x100 ≡ 0 (mod 256)`),
all other bytes zero. -/
def frameA : List ℕ :=
  [0x10, 0x20, 0x00, 0xD0,
   0, 0, 0,
   0, 0, 0, 0,
   0, 0, 0, 0, 0, 0, 0, 0, 0, 0, 0,
   0, 0, 0, 0, 0,
   0, 0, 0, 0, 0]

/-- The end-to-end scenario frame: flow bytes `[0x00, 0x00, 0x01]`,
range bytes `[0xE8, 0x03, 0x00]` (raw range 1000), flow checksum byte
`0x14` chosen so that the grand total is `256 ≡ 0 (mod 256)`, all other
bytes zero. -/
def frameB : List ℕ :=
  [0x00, 0x00, 0x01, 0x14,
   0, 0, 0,
   0xE8, 0x03, 0x00, 0,
   0, 0, 0, 0, 0, 0, 0, 0, 0, 0, 0,
   0, 0, 0, 0, 0,
   0, 0, 0, 0, 0]

/-- A corrupted frame: `frameA` with the flow checksum byte zeroed, so
the byte sum is `0x30 ≢ 0 (mod 256)`. -/
def frameBad : List ℕ :=
  [0x10, 0x20, 0x00, 0x00,
   0, 0, 0,
   0, 0, 0, 0,
   0, 0, 0, 0, 0, 0, 0, 0, 0, 0, 0,
   0, 0, 0, 0, 0,
   0, 0, 0, 0, 0]

/-- A concrete loop state used to instantiate the state-effect theorems. -/
def stateA : LoopState :=
  { flow := 7
    temp := 2
    range := 1000
    serialNumber := [1, 2, 3]
    version := [4]
    fwChks := 5
    flowValue := 3/2
    FlowFilter := cEMAFilter.init
    comError := 1
    error := 2
    success := 3 }

/-! ## Helper lemmas -/

/-- Folding the 8-bit wraparound accumulator over a byte list from a
reduced seed gives the plain sum modulo 256. -/
theorem chksum_foldl (b : List ℕ) :
    ∀ a, a < 256 → b.foldl (fun x y => (x + y) % 256) a = (a + b.sum) % 256 := by
  induction b with
  | nil =>
    intro a ha
    simp [Nat.mod_eq_of_lt ha]
  | cons x t ih =>
    intro a ha
    simp only [List.foldl_cons, List.sum_cons]
    rw [ih _ (Nat.mod_lt _ (by norm_num)), Nat.mod_add_mod, Nat.add_assoc]

/-- The whole-frame checksum equals the byte sum modulo 256. -/
theorem chksum_eq_sum_mod (b : List ℕ) : chksum b = b.sum % 256 := by
  simpa [chksum] using chksum_foldl b 0 (by norm_num)

/-- `leVal` is the positional base-256 sum of the list. -/
theorem leVal_eq_sum (l : List ℕ) :
    leVal l = ∑ j ∈ Finset.range l.length, 256 ^ j * l.getD j 0 := by
  induction l with
  | nil => simp [leVal]
  | cons x t ih =>
    have hstep : leVal (x :: t) = x + 256 * leVal t := rfl
    rw [hstep, ih, List.length_cons, Finset.sum_range_succ']
    simp only [List.getD_cons_succ, List.getD_cons_zero, pow_zero, one_mul]
    rw [Finset.mul_sum, Nat.add_comm]
    congr 1
    exact Finset.sum_congr rfl fun j _ => by ring

/-- Reading inside a `drop`/`take` span is reading the base list at the
shifted index. -/
theorem getD_drop_take (b : List ℕ) (off len j : ℕ) (hj : j < len) :
    ((b.drop off).take len).getD j 0 = b.getD (off + j) 0 := by
  rw [List.getD_eq_getElem?_getD, List.getD_eq_getElem?_getD,
    List.getElem?_take, if_pos hj, List.getElem?_drop]

/-- An in-bounds `drop`/`take` span has the requested length. -/
theorem length_drop_take (b : List ℕ) (off len : ℕ) (h : off + len ≤ b.length) :
    ((b.drop off).take len).length = len := by
  rw [List.length_take, List.length_drop]
  omega

/-- `RebuildVarFromBuffer` produces the little-endian value of the
addressed byte span: byte `off + j` carries weight `256 ^ j`. -/
theorem RebuildVarFromBuffer_eq_sum (b : List ℕ) (off len : ℕ)
    (h : off + len ≤ b.length) :
    RebuildVarFromBuffer b off len = ∑ j ∈ Finset.range len, 256 ^ j * b.getD (off + j) 0 := by
  rw [RebuildVarFromBuffer, leVal_eq_sum, length_drop_take b off len h]
  exact Finset.sum_congr rfl fun j hj => by
    rw [getD_drop_take b off len j (Finset.mem_range.mp hj)]

/-- If every stage the cascade visits holds `v` and the input is `v`,
the cascade returns `v`: each step computes `alpha*v + (1-alpha)*v = v`. -/
theorem emaCascade_const (alpha v : ℚ) (l : List ℕ) (data : ℕ → ℚ)
    (h : ∀ i ∈ l, data i = v) : (emaCascade alpha l data v).2 = v := by
  induction l generalizing data with
  | nil => rfl
  | cons i rest ih =>
    show (emaCascade alpha rest
      (Function.update data i (alpha * data i + (1 - alpha) * v))
      (alpha * data i + (1 - alpha) * v)).2 = v
    have hv : alpha * data i + (1 - alpha) * v = v := by
      rw [h i (List.mem_cons_self i rest)]
      ring
    rw [hv]
    refine ih _ fun j hj => ?_
    rcases eq_or_ne j i with rfl | hne
    · rw [Function.update_same]
    · rw [Function.update_apply, if_neg hne]
      exact h j (List.mem_cons_of_mem i hj)

/-- A filter whose `firstSample` flag is still set returns its input
from `filter`: the stages are seeded to the input before the cascade. -/
theorem first_filter_eq (f : cEMAFilter) (v : ℚ) (h : f.firstSample = true) :
    (f.filter v).2 = v := by
  rw [cEMAFilter.filter]
  simp only [h, if_true]
  exact emaCascade_const _ _ _ _ fun i hi => by
    have hi' : i < f.order := List.mem_range.mp hi
    show (if i < f.order then v else f.filterData i) = v
    rw [if_pos hi']

/-- `List.range 5` spelled out, for concrete filter evaluations. -/
theorem range_five : List.range 5 = [0, 1, 2, 3, 4] := rfl

/-- `List.range 2` spelled out, for concrete filter evaluations. -/
theorem range_two : List.range 2 = [0, 1] := rfl

/-- Bit 23 of a 24-bit value is set exactly when the value is at least
`2^23`. -/
theorem and_bit23_ne_zero_iff (n : ℕ) (h : n < 2 ^ 24) :
    n &&& 0x800000 ≠ 0 ↔ 2 ^ 23 ≤ n := by
  have h1 : (0x800000 : ℕ) = 2 ^ 23 := by norm_num
  have h2 : n &&& 2 ^ 23 = (n.testBit 23).toNat * 2 ^ 23 := Nat.and_two_pow n 23
  have h3 : n.testBit 23 = decide (n / 2 ^ 23 % 2 = 1) := Nat.testBit_to_div_mod
  have e1 : (2 : ℕ) ^ 23 = 8388608 := by norm_num
  have e2 : (2 : ℕ) ^ 24 = 16777216 := by norm_num
  rw [h1, h2, h3]
  by_cases hd : n / 2 ^ 23 % 2 = 1
  · rw [decide_eq_true hd]
    rw [e1] at hd ⊢
    rw [e2] at h
    constructor
    · intro _
      omega
    · intro _
      norm_num
  · rw [decide_eq_false hd]
    rw [e1] at hd ⊢
    rw [e2] at h
    constructor
    · intro hz
      exact (hz rfl).elim
    · intro hle
      exfalso
      omega

/-- For a negative 24-bit flow reading, the stored magnitude
`(~flow) + 1 & 0x7FFFFF` equals `(2^24 - flow) mod 2^23`. -/
theorem negMask_eq (n : ℕ) (h1 : 2 ^ 23 ≤ n) (h2 : n < 2 ^ 24) :
    negMask n = (2 ^ 24 - n) % 2 ^ 23 := by
  have h3 : (0x7FFFFF : ℕ) = 2 ^ 23 - 1 := by norm_num
  rw [negMask, h3, Nat.and_pow_two_sub_one_eq_mod]
  omega

/-! ## Claim theorems -/

/-- C1: for every byte sequence `b` of the full 32-byte frame length,
`decode b` succeeds iff the 8-bit wraparound sum of all 32 bytes (field
bytes and per-field checksum bytes together) modulo 256 equals 0; when
the sum is nonzero it fails with `ChecksumError`.  The validation is the
single whole-frame test in `decode`, never a per-field one. -/
theorem decode_ok_iff_checksum (b : List ℕ) (hlen : b.length = 32) :
    ((∃ d, decode b = Except.ok d) ↔ b.sum % 256 = 0) ∧
    (b.sum % 256 ≠ 0 → decode b = Except.error DecodeError.ChecksumError) := by
  have hc : chksum b = b.sum % 256 := chksum_eq_sum_mod b
  constructor
  · constructor
    · rintro ⟨d, hd⟩
      by_contra hne
      rw [decode, hc, if_neg hne] at hd
      exact Except.noConfusion hd
    · intro hz
      exact ⟨decodeFields b, by rw [decode, hc, if_pos hz]⟩
  · intro hne
    rw [decode, hc, if_neg hne]

/-- C1 witness: the whole-frame checksum criterion instantiated at the
concrete valid frame `frameA`. -/
theorem decode_ok_iff_checksum_witness :
    ((∃ d, decode frameA = Except.ok d) ↔ frameA.sum % 256 = 0) ∧
    (frameA.sum % 256 ≠ 0 → decode frameA = Except.error DecodeError.ChecksumError) :=
  decode_ok_iff_checksum frameA (by decide)

/-- C2 counterexample: the claim's example `convert(0x800001, 1000)` does
not have magnitude 1.  The code's negate-and-mask gives magnitude
`0x7FFFFF`, so the result is `-1000`, not `-(1 * 1000) / 0x7FFFFF`. -/
theorem convert_example_magnitude_not_one :
    convertFlow 0x800001 1000 = -1000 ∧
    convertFlow 0x800001 1000 ≠ -((1 : ℚ) * 1000) / 0x7FFFFF := by
  have h2 : (0x800001 &&& 0x800000 : ℕ) ≠ 0 := by decide
  have h1 : negMask 0x800001 = 0x7FFFFF := by decide
  rw [convertFlow, if_pos h2, h1]
  constructor
  · norm_num
  · norm_num

/-- C2 (amended): for every 24-bit `rawFlow`, if bit 23 (`0x800000`) is
set the result is `-(magnitude * rawRange) / 0x7FFFFF` where the
magnitude is the two's-complement negation of the raw value masked with
`0x7FFFFF`, i.e. `(2^24 - rawFlow) mod 2^23` — so `convert(0x800001,
1000)` is negative with magnitude `0x7FFFFF` (value `-1000`), not
magnitude 1; if bit 23 is clear the result is
`+(rawFlow * rawRange) / 0x7FFFFF`, and `convert(0, rawRange) = 0`. -/
theorem convert_signed_magnitude (raw range : ℕ) (h : raw < 2 ^ 24) :
    (2 ^ 23 ≤ raw →
      convertFlow raw range = -((((2 ^ 24 - raw) % 2 ^ 23 : ℕ) : ℚ) * range) / 0x7FFFFF) ∧
    (raw < 2 ^ 23 →
      convertFlow raw range = ((raw : ℚ) * range) / 0x7FFFFF) ∧
    convertFlow 0 range = 0 := by
  refine ⟨?_, ?_, ?_⟩
  · intro hle
    have hbit : raw &&& 0x800000 ≠ 0 := (and_bit23_ne_zero_iff raw h).mpr hle
    rw [convertFlow, if_pos hbit, negMask_eq raw hle h]
  · intro hlt
    have hbit : ¬raw &&& 0x800000 ≠ 0 := by
      intro hc
      exact absurd ((and_bit23_ne_zero_iff raw h).mp hc) (Nat.not_le.mpr hlt)
    rw [convertFlow, if_neg hbit]
  · rw [convertFlow, if_neg (by decide)]
    norm_num

/-- C2 witness: the amended conversion rule evaluated at the concrete
inputs `0x800001` (negative branch) and `1` (positive branch). -/
theorem convert_signed_magnitude_witness :
    convertFlow 0x800001 1000 = -((((2 ^ 24 - 0x800001) % 2 ^ 23 : ℕ) : ℚ) * 1000) / 0x7FFFFF ∧
    convertFlow 1 1000 = ((1 : ℚ) * 1000) / 0x7FFFFF :=
  ⟨(convert_signed_magnitude 0x800001 1000 (by norm_num)).1 (by norm_num),
   (convert_signed_magnitude 1 1000 (by norm_num)).2.1 (by norm_num)⟩

/-- C3: when the whole-frame checksum is nonzero, the frame-processing
step leaves every decoded field, the converted `flowValue` and the
`FlowFilter` state untouched and only increments the checksum-error
counter `error`; `success` and `comError` are unchanged. -/
theorem checksum_fail_only_error (s : LoopState) (b : List ℕ) (h : chksum b ≠ 0) :
    (processFrame s b).flow = s.flow ∧
    (processFrame s b).temp = s.temp ∧
    (processFrame s b).range = s.range ∧
    (processFrame s b).serialNumber = s.serialNumber ∧
    (processFrame s b).version = s.version ∧
    (processFrame s b).fwChks = s.fwChks ∧
    (processFrame s b).flowValue = s.flowValue ∧
    (processFrame s b).FlowFilter = s.FlowFilter ∧
    (processFrame s b).success = s.success ∧
    (processFrame s b).comError = s.comError ∧
    (processFrame s b).error = s.error + 1 := by
  rw [processFrame, if_pos h]
  exact ⟨rfl, rfl, rfl, rfl, rfl, rfl, rfl, rfl, rfl, rfl, rfl⟩

/-- C3 witness: the no-partial-acceptance theorem instantiated at a
concrete state and the corrupted frame `frameBad`. -/
theorem checksum_fail_only_error_witness :
    (processFrame stateA frameBad).flow = stateA.flow ∧
    (processFrame stateA frameBad).temp = stateA.temp ∧
    (processFrame stateA frameBad).range = stateA.range ∧
    (processFrame stateA frameBad).serialNumber = stateA.serialNumber ∧
    (processFrame stateA frameBad).version = stateA.version ∧
    (processFrame stateA frameBad).fwChks = stateA.fwChks ∧
    (processFrame stateA frameBad).flowValue = stateA.flowValue ∧
    (processFrame stateA frameBad).FlowFilter = stateA.FlowFilter ∧
    (processFrame stateA frameBad).success = stateA.success ∧
    (processFrame stateA frameBad).comError = stateA.comError ∧
    (processFrame stateA frameBad).error = stateA.error + 1 :=
  checksum_fail_only_error stateA frameBad (by decide)

/-- C4: for every frame that passes the checksum, each decoded field
equals the little-endian reconstruction of exactly its byte span (first
listed byte least significant): flow from bytes 0..2, temp from 4..5,
range from 7..9, serialNumber from 11..20, version from 22..25 and
fwChks from 27..30. -/
theorem decoded_fields_little_endian (b : List ℕ) (d : DecodedFrame)
    (hlen : b.length = 32) (hd : decode b = Except.ok d) :
    d.flow = ∑ j ∈ Finset.range 3, 256 ^ j * b.getD (0 + j) 0 ∧
    d.temp = ∑ j ∈ Finset.range 2, 256 ^ j * b.getD (4 + j) 0 ∧
    d.range = ∑ j ∈ Finset.range 3, 256 ^ j * b.getD (7 + j) 0 ∧
    leVal d.serialNumber = ∑ j ∈ Finset.range 10, 256 ^ j * b.getD (11 + j) 0 ∧
    leVal d.version = ∑ j ∈ Finset.range 4, 256 ^ j * b.getD (22 + j) 0 ∧
    d.fwChks = ∑ j ∈ Finset.range 4, 256 ^ j * b.getD (27 + j) 0 := by
  have hdf : d = decodeFields b := by
    rw [decode] at hd
    by_cases hz : chksum b = 0
    · rw [if_pos hz] at hd
      exact (Except.ok.injEq _ _ ▸ hd).symm
    · rw [if_neg hz] at hd
      exact Except.noConfusion hd
  subst hdf
  refine ⟨?_, ?_, ?_, ?_, ?_, ?_⟩
  · exact RebuildVarFromBuffer_eq_sum b 0 3 (by omega)
  · exact RebuildVarFromBuffer_eq_sum b 4 2 (by omega)
  · exact RebuildVarFromBuffer_eq_sum b 7 3 (by omega)
  · exact RebuildVarFromBuffer_eq_sum b 11 10 (by omega)
  · exact RebuildVarFromBuffer_eq_sum b 22 4 (by omega)
  · exact RebuildVarFromBuffer_eq_sum b 27 4 (by omega)

/-- C4 witness: the little-endian reconstruction at the concrete frame
`frameA`, whose flow bytes `[0x10, 0x20, 0x00]` decode to `0x002010`. -/
theorem decoded_fields_little_endian_witness :
    (decodeFields frameA).flow = ∑ j ∈ Finset.range 3, 256 ^ j * frameA.getD (0 + j) 0 ∧
    (decodeFields frameA).flow = 0x002010 :=
  ⟨(decoded_fields_little_endian frameA (decodeFields frameA) (by decide) rfl).1,
   by decide⟩

/-- C8: converting with `rawRange = 0` yields exactly 0 for every raw
flow magnitude, and the conversion's divisor is the nonzero constant
`0x7FFFFF`, so no division by zero can occur. -/
theorem convert_range_zero (rawFlow : ℕ) :
    convertFlow rawFlow 0 = 0 ∧ (0x7FFFFF : ℚ) ≠ 0 := by
  constructor
  · rw [convertFlow]
    split
    · norm_num
    · norm_num
  · norm_num

/-- C9 counterexample: in the end-to-end scenario frame `frameB` (valid
checksum, flow bytes `[0x00, 0x00, 0x01]`, range bytes
`[0xE8, 0x03, 0x00]`), the raw flow decodes to `0x010000` whose sign bit
23 is NOT set, and the engineering value is positive — not the claimed
large negative value. -/
theorem scenario_flow_not_negative :
    decode frameB = Except.ok (decodeFields frameB) ∧
    (decodeFields frameB).flow = 0x010000 ∧
    (decodeFields frameB).range = 1000 ∧
    (0x010000 &&& 0x800000 : ℕ) = 0 ∧
    0 < convertFlow 0x010000 1000 := by
  refine ⟨rfl, by decide, by decide, by decide, ?_⟩
  rw [convertFlow, if_neg (by decide)]
  norm_num

/-- C9 (amended): for the valid scenario frame `frameB`, the raw flow
decodes to `0x010000` with the sign bit clear, so no negate-and-mask
happens, and the engineering value is the positive
`(0x010000 * 1000) / 0x7FFFFF = 65536000 / 8388607 ≈ +7.81`; the
processing step records exactly this `flowValue`. -/
theorem scenario_flow_value :
    decode frameB = Except.ok (decodeFields frameB) ∧
    (decodeFields frameB).flow = 0x010000 ∧
    (decodeFields frameB).range = 1000 ∧
    convertFlow 0x010000 1000 = (65536000 : ℚ) / 8388607 ∧
    (processFrame stateA frameB).flowValue = (65536000 : ℚ) / 8388607 := by
  have hflow : (decodeFields frameB).flow = 0x010000 := by decide
  have hrange : (decodeFields frameB).range = 1000 := by decide
  have hconv : convertFlow 0x010000 1000 = (65536000 : ℚ) / 8388607 := by
    rw [convertFlow, if_neg (by decide)]
    norm_num
  refine ⟨rfl, hflow, hrange, hconv, ?_⟩
  have hz : ¬chksum frameB ≠ 0 := by decide
  rw [processFrame, if_neg hz]
  show convertFlow (decodeFields frameB).flow (decodeFields frameB).range = _
  rw [hflow, hrange, hconv]

/-- C5: for every input `v`, every order in `[1, MAX_EMA_ORDER]` and
every alpha in `(0, 1)`, the first call to `filter` on a freshly
constructed (and so configured) filter returns exactly `v`: all stages
are seeded to `v` before the cascade runs, and each stage computes
`alpha*v + (1-alpha)*v = v`. -/
theorem first_process_returns_input (alpha : ℚ) (order : ℕ) (v : ℚ)
    (h1 : 1 ≤ order) (h2 : order ≤ MAX_EMA_ORDER) (h3 : 0 < alpha) (h4 : alpha < 1) :
    ((cEMAFilter.init.config alpha order).filter v).2 = v := by
  have hcfg : cEMAFilter.init.config alpha order =
      { cEMAFilter.init with order := order, alpha := alpha } := by
    rw [cEMAFilter.config, if_pos ⟨⟨h1, h2⟩, h3, h4⟩]
  rw [hcfg]
  exact first_filter_eq _ v rfl

/-- C5 witness: the first `filter` call on a fresh filter configured
with `alpha = 1/2`, `order = 2` returns its input `7` exactly. -/
theorem first_process_returns_input_witness :
    ((cEMAFilter.init.config (1/2) 2).filter 7).2 = 7 :=
  first_process_returns_input (1/2) 2 7 (by decide) (by decide)
    (by norm_num) (by norm_num)

/-- C6: `config` updates the filter parameters iff `alpha` is strictly
between 0 and 1 and `order` is between 1 and `MAX_EMA_ORDER` inclusive;
for any out-of-range input the call is a silent no-op and both
previously configured parameters remain in effect unchanged. -/
theorem config_valid_iff (f : cEMAFilter) (alpha : ℚ) (order : ℕ) :
    ((0 < alpha ∧ alpha < 1 ∧ 1 ≤ order ∧ order ≤ MAX_EMA_ORDER) →
      f.config alpha order = { f with alpha := alpha, order := order }) ∧
    (¬(0 < alpha ∧ alpha < 1 ∧ 1 ≤ order ∧ order ≤ MAX_EMA_ORDER) →
      f.config alpha order = f) := by
  constructor
  · rintro ⟨h1, h2, h3, h4⟩
    rw [cEMAFilter.config, if_pos ⟨⟨h3, h4⟩, h1, h2⟩]
  · intro h
    rw [cEMAFilter.config, if_neg]
    tauto

/-- C6 witness: a valid `config (1/4) 3` updates both parameters, and
the out-of-range calls `config (3/2) 3` (alpha too large) and
`config (1/4) 0` (order zero) are no-ops. -/
theorem config_valid_iff_witness :
    cEMAFilter.init.config (1/4) 3 = { cEMAFilter.init with alpha := 1/4, order := 3 } ∧
    cEMAFilter.init.config (3/2) 3 = cEMAFilter.init ∧
    cEMAFilter.init.config (1/4) 0 = cEMAFilter.init :=
  ⟨(config_valid_iff cEMAFilter.init (1/4) 3).1 ⟨by norm_num, by norm_num, by decide, by decide⟩,
   (config_valid_iff cEMAFilter.init (3/2) 3).2 (by norm_num),
   (config_valid_iff cEMAFilter.init (1/4) 0).2 (by norm_num)⟩

/-- C7 counterexample: `reset` does NOT clear the initialized-flag
semantics.  After one `filter` call, `reset 0` leaves `firstSample`
false, and the next `filter 1` runs the cascade on the zeroed stages and
returns `1/32` (order 5, alpha 1/2) instead of re-seeding to return 1. -/
theorem reset_does_not_clear_first_sample :
    ((cEMAFilter.init.filter 1).1.reset 0).firstSample = false ∧
    ((((cEMAFilter.init.filter 1).1.reset 0).filter 1).2 = 1/32 ∧ ((1 : ℚ)/32) ≠ 1) := by
  refine ⟨rfl, ?_, by norm_num⟩
  simp [cEMAFilter.filter, cEMAFilter.init, cEMAFilter.reset, emaCascade,
    Function.update_apply, EMA_DEFAULT_ORDER, EMA_DEFAULT_ALPHA, range_five]
  norm_num

/-- C7 (amended): `reset p` sets all `order` stage accumulators to `p`
and leaves everything else — including the `firstSample` flag — exactly
as it was; the next `filter` call re-seeds the stages from its input
only when that flag is still set, i.e. before the first `filter` call
since construction. -/
theorem reset_sets_stages_keeps_flag (f : cEMAFilter) (p v : ℚ) :
    (∀ i, i < f.order → (f.reset p).filterData i = p) ∧
    (∀ i, f.order ≤ i → (f.reset p).filterData i = f.filterData i) ∧
    (f.reset p).firstSample = f.firstSample ∧
    (f.reset p).order = f.order ∧
    (f.reset p).alpha = f.alpha ∧
    (f.firstSample = true → ((f.reset p).filter v).2 = v) := by
  refine ⟨?_, ?_, rfl, rfl, rfl, ?_⟩
  · intro i hi
    show (if i < f.order then p else f.filterData i) = p
    rw [if_pos hi]
  · intro i hi
    show (if i < f.order then p else f.filterData i) = f.filterData i
    rw [if_neg (Nat.not_lt.mpr hi)]
  · intro h
    exact first_filter_eq (f.reset p) v h

/-- C7 witness: on a fresh filter, `reset 2` stores 2 in stage 0, keeps
the flag set, and the following first `filter 9` call still re-seeds and
returns 9. -/
theorem reset_sets_stages_keeps_flag_witness :
    (cEMAFilter.init.reset 2).filterData 0 = 2 ∧
    ((cEMAFilter.init.reset 2).filter 9).2 = 9 :=
  ⟨(reset_sets_stages_keeps_flag cEMAFilter.init 2 9).1 0 (by norm_num [cEMAFilter.init, EMA_DEFAULT_ORDER]),
   (reset_sets_stages_keeps_flag cEMAFilter.init 2 9).2.2.2.2.2 rfl⟩

/-- C10: the parameterized constructor ignores both of its arguments —
the body assigns the defaults to its own parameters (which shadow the
member fields) before calling `config` — so the constructed filter
always has `alpha = 1/2` and `order = 5` regardless of the values
passed, and equals the filter constructed from any other arguments. -/
theorem param_ctor_ignores_args (alpha alpha2 : ℚ) (order order2 : ℕ) :
    cEMAFilter.initParam alpha order = cEMAFilter.initParam alpha2 order2 ∧
    (cEMAFilter.initParam alpha order).alpha = 1/2 ∧
    (cEMAFilter.initParam alpha order).order = 5 ∧
    (cEMAFilter.initParam alpha order).firstSample = true := by
  refine ⟨rfl, ?_, ?_, ?_⟩ <;>
    norm_num [cEMAFilter.initParam, cEMAFilter.config, MAX_EMA_ORDER,
      EMA_DEFAULT_ORDER, EMA_DEFAULT_ALPHA]

end FlowTEX
